import Mathlib

/-!
# Verification of the Reflex Layer core

A shallow embedding, in Lean 4, of the Reflex Layer of the Autonomous Modular
Growth Engine: the error taxonomy (`exceptions.py`, present in full), the
singleton connection client (`firebase_client.py`, whose file truncates inside
`_validate_configuration`), and the Event Mesh / Materialized View Manager
(whose modules are declared by the package but whose code is absent; those
operations are modelled from the specification and are marked as such in their
doc comments).

Python dictionaries with string keys (`Dict[str, Any]`) are embedded as
association lists `List (String × α)` with first-occurrence lookup and
replace-or-append assignment, which coincides with `dict` behaviour on the
unique-key dictionaries the program builds.  Python values are embedded as the
inductive `PyVal`.
-/

/-- A Python value as used by the Reflex Layer: `None`, booleans, integers,
strings, lists, and string-keyed dictionaries.  Field names, context keys and
violation keys in this program are strings (spec §3: payloads map field names
to values; a `SchemaRule` is a set of required field *names*), so dictionary
keys are embedded as `String`. -/
inductive PyVal where
  | vNone : PyVal
  | vBool : Bool → PyVal
  | vInt : Int → PyVal
  | vStr : String → PyVal
  | vList : List PyVal → PyVal
  | vDict : List (String × PyVal) → PyVal

/-- A string-keyed Python dictionary with values of type `α`. -/
abbrev SDict (α : Type) := List (String × α)

/-- A Python `Dict[str, Any]`. -/
abbrev PyDict := SDict PyVal

/-- Dictionary lookup `d.get(k)` / `d[k]`: the value at the first occurrence of
the key, if any. -/
def aget? {α : Type} : SDict α → String → Option α
  | [], _ => none
  | (k', v) :: rest, k => if k' = k then some v else aget? rest k

/-- Python `k in d`: whether the key is present. -/
def ahasKey {α : Type} (d : SDict α) (k : String) : Bool :=
  (aget? d k).isSome

/-- Python dictionary assignment `d[k] = v`: replace the value at an existing
key in place, otherwise append the new binding (insertion order preserved). -/
def aset {α : Type} : SDict α → String → α → SDict α
  | [], k, v => [(k, v)]
  | (k', v') :: rest, k, v =>
      if k' = k then (k, v) :: rest else (k', v') :: aset rest k v

/-!
## Error taxonomy (`exceptions.py`, present in src)

Every error is an instance of the base record below.  Python's dynamically
typed `self.context` attribute is embedded as a `PyVal` so that "the context is
a mapping and never `None`" is a statement about the value stored, not a
consequence of a Lean type annotation.
-/

/-- The data carried by a `ReflexLayerError` (base class of the taxonomy):
the message, the component tag, the structured context, and the string passed
to `Exception.__init__` (`f"[{component}] {message}"`). -/
structure ReflexError where
  message : String
  component : String
  context : PyVal
  exc_str : String

/-- Embedding of `ReflexLayerError.__init__(message, component, context)`:
stores the message and component and sets `self.context = context or {}`
(`None` and the empty dict both normalise to `{}`). -/
def ReflexLayerError.mk' (message : String) (component : String)
    (context : Option PyDict) : ReflexError :=
  { message := message
    component := component
    context := PyVal.vDict (match context with
      | some d => d          -- a dict argument is stored as is ({} is falsy but `{} or {}` is {})
      | none => [])          -- `None or {}` is `{}`
    exc_str := "[" ++ component ++ "] " ++ message }

/-- Embedding of `FirebaseConnectionError.__init__(message, firebase_error, credentials_path)`:
component `"firebase_client"`, context `{"firebase_error": str(e) or None,
"credentials_path": path}`.  The underlying exception is embedded by its
`str(...)` form, which is all the constructor keeps of it. -/
def FirebaseConnectionError.mk' (message : String) (firebase_error : Option String)
    (credentials_path : Option String) : ReflexError :=
  ReflexLayerError.mk' message "firebase_client" (some
    [("firebase_error", match firebase_error with
        | some s => PyVal.vStr s
        | none => PyVal.vNone),
     ("credentials_path", match credentials_path with
        | some s => PyVal.vStr s
        | none => PyVal.vNone)])

/-- Embedding of `EventValidationError._extract_schema_violations(event_data, rules)`:
returns `{}` when `rules` is `None` or empty; otherwise, for each entry of
`rules.get("required_fields", [])` that is not a key of `event_data`, records
the violation `field ↦ "Missing required field"`.  Required-field entries are
field names, i.e. strings (spec §3); a rules dict holding a non-string entry
or a non-list `"required_fields"` value is outside the modelled state space. -/
def extract_schema_violations (event_data : PyDict) (rules : Option PyDict) : PyDict :=
  match rules with
  | none => []
  | some r =>
    if r.isEmpty then []     -- `if not rules` is also true for an empty dict
    else
      (match aget? r "required_fields" with
        | some (PyVal.vList l) => l
        | _ => []).foldl
        (fun violations f =>
          match f with
          | PyVal.vStr field =>
              if ahasKey event_data field then violations
              else aset violations field (PyVal.vStr "Missing required field")
          | _ => violations) []

/-- Embedding of `EventValidationError.__init__(message, event_data, validation_rules)`:
component `"event_mesh"`, context holding the offending event data, the rule
evaluated, and the full violation set. -/
def EventValidationError.mk' (message : String) (event_data : PyDict)
    (validation_rules : Option PyDict) : ReflexError :=
  ReflexLayerError.mk' message "event_mesh" (some
    [("event_data", PyVal.vDict event_data),
     ("validation_rules", match validation_rules with
        | some r => PyVal.vDict r
        | none => PyVal.vNone),
     ("schema_violations", PyVal.vDict (extract_schema_violations event_data validation_rules))])

/-- Embedding of `MaterializedViewError.__init__(message, view_name, operation, data)`:
component `"materialized_views"`, context `{"view_name": ..., "operation": ...,
"data_size": len(data) if data else 0}` — the data itself is never stored. -/
def MaterializedViewError.mk' (message : String) (view_name : String)
    (operation : String) (data : Option PyDict) : ReflexError :=
  ReflexLayerError.mk' message "materialized_views" (some
    [("view_name", PyVal.vStr view_name),
     ("operation", PyVal.vStr operation),
     ("data_size", PyVal.vInt (match data with
        | some d => if d.isEmpty then 0 else (d.length : Int)   -- `len(data) if data else 0`
        | none => 0))])

/-- Lookup in an error's structured context (`err.context[k]`), `none` when the
context is not a dictionary. -/
def ctxGet? (err : ReflexError) (k : String) : Option PyVal :=
  match err.context with
  | PyVal.vDict d => aget? d k
  | _ => none

/-!
## Connection client (`firebase_client.py`)

Present in src: the class constants, the singleton `__new__`, and the whole of
`__init__` (attribute defaults from the environment, the call to
`_validate_configuration` before any network step, the try/except around the
network steps).  The body of `_validate_configuration` and everything after it
is truncated out of the file, as is the reconnect loop; those are modelled from
the specification below.
-/

/-- The constant `FirebaseClient.MAX_RECONNECT_ATTEMPTS` (src). -/
def MAX_RECONNECT_ATTEMPTS : Nat := 5

/-- The constant `FirebaseClient.RECONNECT_BASE_DELAY` (src, seconds). -/
def RECONNECT_BASE_DELAY : Nat := 2

/-- The `ConnectionState` status (spec §3) owned by the Connection
Manager. -/
inductive ConnectionState where
  | Disconnected
  | Connecting
  | Healthy
  | Degraded
  | Failed
deriving DecidableEq, Repr

/-- Connection health tracking: the consecutive-failure count and the current
state. -/
structure ConnHealth where
  reconnect_attempts : Nat
  state : ConnectionState
deriving DecidableEq, Repr

/-- Modelled from the spec: the probe-failure transition of the health monitor
(the reconnect loop is truncated out of `firebase_client.py`; only the
constants `MAX_RECONNECT_ATTEMPTS` and `RECONNECT_BASE_DELAY` survive in src).
On probe failure number `n` (1-indexed) the failure count becomes `n`, the
state becomes `Degraded` (`Failed` once `n` reaches the attempt cap), and a
reconnect is scheduled after `base * 2^(n-1)` — the delay stops growing at the
cap (`base * 2^(cap-1)` from then on).  Returns the new health record and the
scheduled delay. -/
def onProbeFailure (base maxAttempts : Nat) (c : ConnHealth) : ConnHealth × Nat :=
  let n := c.reconnect_attempts + 1
  ({ reconnect_attempts := n
     state := if maxAttempts ≤ n then ConnectionState.Failed else ConnectionState.Degraded },
   base * 2 ^ (min n maxAttempts - 1))

/-- The health record after `k` consecutive failed probes starting from a
healthy connection, together with the list of scheduled reconnect delays in
order. -/
def runFailures (base maxAttempts : Nat) : Nat → ConnHealth × List Nat
  | 0 => ({ reconnect_attempts := 0, state := ConnectionState.Healthy }, [])
  | k + 1 =>
    let (c, ds) := runFailures base maxAttempts k
    let (c', d) := onProbeFailure base maxAttempts c
    (c', ds ++ [d])

/-- The configuration surface of the client: `credentials_path` and
`project_id`, each possibly absent (`None`). -/
structure FirebaseConfig where
  credentials_path : Option String
  project_id : Option String
deriving DecidableEq, Repr

/-- Python `a or b` on optional strings: `None` and `""` are falsy, so
`credentials_path or os.getenv(...)` falls back to the environment for both. -/
def pyOr (a b : Option String) : Option String :=
  match a with
  | some s => if s = "" then b else some s
  | none => b

/-- The instance object built by `FirebaseClient.__new__`/`__init__`.  `oid` is
the object's identity (its allocation number), so that "the same shared
instance" is expressible; Python field mutation is embedded as a record update
that preserves `oid`. -/
structure ClientObj where
  oid : Nat
  initialized : Bool
  credentials_path : Option String
  project_id : Option String
deriving DecidableEq, Repr

/-- Per-process state of the singleton pattern: `FirebaseClient._instance` and
an allocation counter for object identities. -/
structure ProcState where
  inst : Option ClientObj
  nextId : Nat
deriving DecidableEq, Repr

/-- The state of a fresh process: `_instance = None`, no object allocated. -/
def initProcState : ProcState :=
  { inst := none, nextId := 0 }

/-- Embedding of `FirebaseClient.__new__` (src): if `_instance is None`, allocate a bare
object (no `_initialized` attribute yet, embedded as `initialized := false`)
and store it in `_instance`; in every case return `_instance`. -/
def new_instance (st : ProcState) : ClientObj × ProcState :=
  match st.inst with
  | some o => (o, st)
  | none =>
      let o : ClientObj :=
        { oid := st.nextId, initialized := false
          credentials_path := none, project_id := none }
      (o, { inst := some o, nextId := st.nextId + 1 })

/-- The steps `__init__` runs after the already-initialized check, in order. -/
inductive InitStep where
  | validate        -- `self._validate_configuration()`
  | initFirebase    -- `self._initialize_firebase()` (first network step)
  | setupClients    -- `self._setup_clients()`
  | healthMonitor   -- `self._start_health_monitor()`
deriving DecidableEq, Repr

/-- Modelled from the spec: the body of `FirebaseClient._validate_configuration`
(the src file truncates immediately after its docstring).  Per spec §4.1 the
check "fails with `ConnectionError` if configuration is invalid (missing
credential reference, malformed target identifier)" before any network
attempt; well-formedness of a target identifier is abstracted as the predicate
`wf`. -/
def validate_configuration (wf : String → Bool) (o : ClientObj) :
    Except ReflexError Unit :=
  match o.credentials_path with
  | none => Except.error (FirebaseConnectionError.mk'
      "Missing credential reference" none none)
  | some _ =>
    match o.project_id with
    | none => Except.error (FirebaseConnectionError.mk'
        "Missing target identifier" none o.credentials_path)
    | some pid =>
        if wf pid then Except.ok ()
        else Except.error (FirebaseConnectionError.mk'
          "Malformed target identifier" none o.credentials_path)

/-- One call `FirebaseClient(credentials_path, project_id)`:
`__new__` (src) followed by `__init__` (src).  `__init__` returns immediately
when the instance is already initialized; otherwise it sets the attributes
(argument `or` environment), validates the configuration before any network
step, and only then runs the network steps (`_initialize_firebase`,
`_setup_clients`, `_start_health_monitor` — their success is abstracted as the
flag `netOk`, their bodies being truncated out of src), wrapping their failure
in a `FirebaseConnectionError`.  Returns the result (the constructed object or
the raised error), the new process state, and the list of steps run. -/
def construct (wf : String → Bool) (netOk : Bool) (env args : FirebaseConfig)
    (st : ProcState) : Except ReflexError ClientObj × ProcState × List InitStep :=
  let (o, st1) := new_instance st
  if o.initialized then (Except.ok o, st1, [])
  else
    let o1 : ClientObj :=
      { o with
        credentials_path := pyOr args.credentials_path env.credentials_path
        project_id := pyOr args.project_id env.project_id }
    match validate_configuration wf o1 with
    | Except.error err => (Except.error err, { st1 with inst := some o1 }, [InitStep.validate])
    | Except.ok _ =>
      if netOk then
        let o2 : ClientObj := { o1 with initialized := true }
        (Except.ok o2, { st1 with inst := some o2 },
         [InitStep.validate, InitStep.initFirebase, InitStep.setupClients, InitStep.healthMonitor])
      else
        (Except.error (FirebaseConnectionError.mk'
            "Failed to initialize Firebase" (some "network failure") o1.credentials_path),
         { st1 with inst := some o1 },
         [InitStep.validate, InitStep.initFirebase])

/-- The arguments of one `FirebaseClient(...)` call: the explicit arguments,
the environment seen by `os.getenv`, and whether the network steps succeed. -/
structure CallArgs where
  args : FirebaseConfig
  env : FirebaseConfig
  netOk : Bool
deriving DecidableEq, Repr

/-- A sequence of `FirebaseClient(...)` calls in one process: threads the
process state through `construct` and collects each call's result. -/
def runConstructions (wf : String → Bool) :
    List CallArgs → ProcState → ProcState × List (Except ReflexError ClientObj)
  | [], st => (st, [])
  | c :: cs, st =>
      let (r, st', _) := construct wf c.netOk c.env c.args st
      let (stf, rs) := runConstructions wf cs st'
      (stf, r :: rs)

/-!
## Event Mesh and Materialized View Manager

The package `__init__` exports `EventMesh` and `MaterializedViewManager`, but
`event_mesh.py` and `materialized_views.py` are absent from src; their
operations are modelled from the specification (§4.2, §4.3), reusing the error
constructors from `exceptions.py` above.
-/

/-- An event record (spec §3 `Event`): type identifier, payload (field name → value), source
path, and the sequence marker assigned by the backend. -/
structure Event where
  etype : String
  payload : PyDict
  source_path : String
  seq : Int

/-- A subscription (spec §3 `Subscription`): an event-type pattern (the type name, or the
wildcard `"*"`) bound to a subscriber handle. -/
structure Subscription where
  pattern : String
  sid : Nat
deriving DecidableEq, Repr

/-- The Event Mesh state: registered schema rules keyed by event type, and the
subscriptions in registration order. -/
structure MeshState where
  schemas : SDict PyDict
  subs : List Subscription

/-- The subscriptions matching an event type: those registered for the type
plus all wildcard subscriptions, in registration order (spec §4.2 step 4). -/
def matchingSubs (mesh : MeshState) (t : String) : List Subscription :=
  mesh.subs.filter (fun s => s.pattern == t || s.pattern == "*")

/-- Modelled from the spec: `EventMesh.ingest` steps 2–4 (`event_mesh.py` is
absent from src).  Look up the `SchemaRule` for the event type (no rule means
schema-free pass-through); compute the full violation set with
`extract_schema_violations` (src); when violations exist fail with an
`EventValidationError` carrying them all, otherwise dispatch the event
unchanged to every matching subscription in registration order.  Step 1
(rejecting a raw notification with no type or payload) happens before an
`Event` value exists and is outside this model. -/
def ingest (mesh : MeshState) (e : Event) :
    Except ReflexError (List (Nat × Event)) :=
  let rule := aget? mesh.schemas e.etype
  let violations := extract_schema_violations e.payload rule
  if violations.isEmpty then
    Except.ok ((matchingSubs mesh e.etype).map (fun s => (s.sid, e)))
  else
    Except.error ( EventValidationError.mk' "Event validation failed" e.payload rule)

/-- A materialized view (spec §3 `MaterializedView`): current value, last-applied sequence
marker, dirty/consistent flag. -/
structure MaterializedView where
  value : PyVal
  last_applied : Int
  consistent : Bool

/-- Modelled from the spec: the per-view part of `MaterializedViewManager.onEvent`
(`materialized_views.py` is absent from src).  A view is created lazily on the
first matching event from the initial value `initVal` (spec §4.3 `bindView`).
For an existing view, an event whose sequence marker is not greater than the
view's last-applied marker is rejected with a `MaterializedViewError`
(operation `"apply"`, the reason `"stale-or-duplicate"` carried as the message,
the src error class having no separate reason field) and the view is left
untouched; otherwise `applyFn` is applied, the marker advanced, and the view
marked consistent.  Returns the updated view table and the outcome. -/
def applyToView (applyFn : PyVal → Event → PyVal) (initVal : PyVal)
    (views : SDict MaterializedView) (viewId : String) (e : Event) :
    SDict MaterializedView × Except ReflexError MaterializedView :=
  match aget? views viewId with
  | none =>
      let v : MaterializedView :=
        { value := applyFn initVal e, last_applied := e.seq, consistent := true }
      (aset views viewId v, Except.ok v)
  | some v =>
      if e.seq ≤ v.last_applied then
        (views, Except.error (MaterializedViewError.mk'
          "stale-or-duplicate" viewId "apply" none))
      else
        let v' : MaterializedView :=
          { value := applyFn v.value e, last_applied := e.seq, consistent := true }
        (aset views viewId v', Except.ok v')

/-!
## Dictionary lemmas
-/

theorem aget?_aset_self {α : Type} (d : SDict α) (k : String) (v : α) :
    aget? (aset d k v) k = some v := by
  induction d with
  | nil => simp [aset, aget?]
  | cons p rest ih =>
      obtain ⟨k', v'⟩ := p
      by_cases h : k' = k <;> simp [aset, aget?, h, ih]

theorem mem_of_aget?_eq_some {α : Type} {d : SDict α} {k : String} {v : α}
    (h : aget? d k = some v) : (k, v) ∈ d := by
  induction d with
  | nil => simp [aget?] at h
  | cons p rest ih =>
      obtain ⟨k', v'⟩ := p
      by_cases hk : k' = k
      · subst hk
        simp [aget?] at h
        simp [h]
      · simp [aget?, hk] at h
        exact List.mem_cons_of_mem _ (ih h)

theorem ahasKey_cons {α : Type} (k' : String) (v' : α) (rest : SDict α) (k : String) :
    ahasKey ((k', v') :: rest) k = if k' = k then true else ahasKey rest k := by
  by_cases h : k' = k <;> simp [ahasKey, aget?, h]

theorem aset_allconst {α : Type} (msg : α) :
    ∀ (d : SDict α), (∀ p ∈ d, p.2 = msg) → ∀ k : String,
      aset d k msg = if ahasKey d k then d else d ++ [(k, msg)] := by
  intro d
  induction d with
  | nil => intro _ k; simp [aset, ahasKey, aget?]
  | cons p rest ih =>
      intro hall k
      obtain ⟨k', v'⟩ := p
      have hv' : v' = msg := hall (k', v') (List.mem_cons_self _ _)
      by_cases h : k' = k
      · subst h hv'
        simp [aset, ahasKey, aget?]
      · have hrest : ∀ p ∈ rest, p.2 = msg :=
          fun p hp => hall p (List.mem_cons_of_mem _ hp)
        simp only [aset, if_neg h, ahasKey_cons, ih hrest k]
        by_cases hk : ahasKey rest k = true <;> simp [h, hk]

theorem aset_allconst_vals {α : Type} (msg : α) (d : SDict α)
    (hd : ∀ p ∈ d, p.2 = msg) (k : String) :
    ∀ p ∈ aset d k msg, p.2 = msg := by
  rw [aset_allconst msg d hd k]
  by_cases hk : ahasKey d k = true
  · simpa [hk] using hd
  · simp only [hk, if_false, Bool.false_eq_true]
    intro p hp
    rcases List.mem_append.mp hp with h | h
    · exact hd p h
    · simp at h
      simp [h]

theorem mem_violation_fold (ed : PyDict) (msg : PyVal) :
    ∀ (fs : List String) (acc : PyDict), (∀ p ∈ acc, p.2 = msg) →
    ∀ (k : String) (v : PyVal),
      ((k, v) ∈ fs.foldl (fun a n => if ahasKey ed n then a else aset a n msg) acc ↔
        ((k, v) ∈ acc ∨ (k ∈ fs ∧ ahasKey ed k = false ∧ v = msg))) := by
  intro fs
  induction fs with
  | nil => intro acc _ k v; simp
  | cons f fs ih =>
      intro acc hacc k v
      simp only [List.foldl_cons]
      by_cases hf : ahasKey ed f = true
      · rw [if_pos hf, ih acc hacc]
        constructor
        · rintro (h | ⟨h1, h2, h3⟩)
          · exact Or.inl h
          · exact Or.inr ⟨List.mem_cons_of_mem _ h1, h2, h3⟩
        · rintro (h | ⟨h1, h2, h3⟩)
          · exact Or.inl h
          · rcases List.mem_cons.mp h1 with rfl | h1'
            · rw [hf] at h2; cases h2
            · exact Or.inr ⟨h1', h2, h3⟩
      · rw [if_neg hf]
        have hacc' := aset_allconst_vals msg acc hacc f
        rw [ih _ hacc', aset_allconst msg acc hacc f]
        have hf' : ahasKey ed f = false := by
          cases hb : ahasKey ed f
          · rfl
          · exact absurd hb hf
        by_cases hin : ahasKey acc f = true
        · rw [if_pos hin]
          have hmem : (f, msg) ∈ acc := by
            obtain ⟨x, hx⟩ := Option.isSome_iff_exists.mp hin
            have hm := mem_of_aget?_eq_some hx
            have hx2 : x = msg := by simpa using hacc _ hm
            rw [hx2] at hm
            exact hm
          constructor
          · rintro (h | ⟨h1, h2, h3⟩)
            · exact Or.inl h
            · exact Or.inr ⟨List.mem_cons_of_mem _ h1, h2, h3⟩
          · rintro (h | ⟨h1, h2, h3⟩)
            · exact Or.inl h
            · rcases List.mem_cons.mp h1 with rfl | h1'
              · subst h3; exact Or.inl hmem
              · exact Or.inr ⟨h1', h2, h3⟩
        · rw [if_neg hin]
          constructor
          · rintro (h | ⟨h1, h2, h3⟩)
            · rcases List.mem_append.mp h with h' | h'
              · exact Or.inl h'
              · simp at h'
                exact Or.inr ⟨by simp [h'.1], by rw [h'.1]; exact hf', h'.2⟩
            · exact Or.inr ⟨List.mem_cons_of_mem _ h1, h2, h3⟩
          · rintro (h | ⟨h1, h2, h3⟩)
            · exact Or.inl (List.mem_append_left _ h)
            · rcases List.mem_cons.mp h1 with rfl | h1'
              · subst h3
                exact Or.inl (List.mem_append_right _ (by simp))
              · exact Or.inr ⟨h1', h2, h3⟩

theorem extract_mem_iff (ed : PyDict) (r : PyDict) (names : List String)
    (hr : aget? r "required_fields" = some (PyVal.vList (names.map PyVal.vStr))) :
    ∀ (k : String) (v : PyVal),
      ((k, v) ∈ extract_schema_violations ed (some r) ↔
        (k ∈ names ∧ ahasKey ed k = false ∧ v = PyVal.vStr "Missing required field")) := by
  intro k v
  have hne : r.isEmpty = false := by
    cases r with
    | nil => simp [aget?] at hr
    | cons p rest => rfl
  have hmain :
      (k, v) ∈ (names.map PyVal.vStr).foldl
        (fun violations f =>
          match f with
          | PyVal.vStr field =>
              if ahasKey ed field then violations
              else aset violations field (PyVal.vStr "Missing required field")
          | _ => violations) ([] : PyDict) ↔
      (k ∈ names ∧ ahasKey ed k = false ∧ v = PyVal.vStr "Missing required field") := by
    rw [List.foldl_map]
    have h := mem_violation_fold ed (PyVal.vStr "Missing required field") names
      ([] : PyDict) (by simp) k v
    simpa using h
  simpa [extract_schema_violations, hne, hr] using hmain

/-!
## Reconnection backoff lemmas
-/

theorem runFailures_attempts (b m : Nat) :
    ∀ k, (runFailures b m k).1.reconnect_attempts = k := by
  intro k
  induction k with
  | zero => rfl
  | succ k ih => simp [runFailures, onProbeFailure, ih]

theorem runFailures_delays (b m : Nat) :
    ∀ k, (runFailures b m k).2 = (List.range k).map (fun i => b * 2 ^ (min (i + 1) m - 1)) := by
  intro k
  induction k with
  | zero => rfl
  | succ k ih =>
      simp [runFailures, onProbeFailure, ih, runFailures_attempts, List.range_succ]

theorem runFailures_state (b m : Nat) :
    ∀ k, 1 ≤ k →
      (runFailures b m k).1.state
        = if m ≤ k then ConnectionState.Failed else ConnectionState.Degraded := by
  intro k hk
  cases k with
  | zero => exact absurd hk (by simp)
  | succ k => simp [runFailures, onProbeFailure, runFailures_attempts]

/-- C1: for every reconnect sequence with base delay `d` and attempt cap `m`,
the `n`-th retry (1 ≤ n ≤ m) is scheduled after a delay of `d·2^(n-1)`; after
the `m`-th failed attempt the state is `Failed` and the delay no longer grows
(the `j`-th scheduled delay for every `j ≥ m` stays at `d·2^(m-1)`); in the
reference configuration (`RECONNECT_BASE_DELAY = 2`,
`MAX_RECONNECT_ATTEMPTS = 5` from src) the five delays are 2, 4, 8, 16, 32. -/
theorem C1_reconnect_backoff (d m n : Nat) (h1 : 1 ≤ n) (h2 : n ≤ m) :
    ((runFailures d m m).2)[n - 1]? = some (d * 2 ^ (n - 1))
    ∧ (runFailures d m m).1.state = ConnectionState.Failed
    ∧ (∀ j, m ≤ j → ((runFailures d m j).2)[j - 1]? = some (d * 2 ^ (m - 1)))
    ∧ (runFailures RECONNECT_BASE_DELAY MAX_RECONNECT_ATTEMPTS MAX_RECONNECT_ATTEMPTS).2
        = [2, 4, 8, 16, 32] := by
  have hm1 : 1 ≤ m := le_trans h1 h2
  refine ⟨?_, ?_, ?_, by decide⟩
  · rw [runFailures_delays]
    have hlt : n - 1 < m := by omega
    rw [List.getElem?_map, List.getElem?_range hlt]
    have hn : n - 1 + 1 = n := by omega
    simp [hn, min_eq_left h2]
  · rw [runFailures_state d m m hm1]
    simp
  · intro j hj
    have hj1 : 1 ≤ j := le_trans hm1 hj
    rw [runFailures_delays]
    have hlt : j - 1 < j := by omega
    rw [List.getElem?_map, List.getElem?_range hlt]
    have hn : j - 1 + 1 = j := by omega
    simp [hn, min_eq_right hj]

/-- Witness for C1 at `d = 2`, `m = 5`, `n = 3`, and `j = 7`. -/
theorem C1_reconnect_backoff_witness :
    ((runFailures 2 5 5).2)[3 - 1]? = some (2 * 2 ^ (3 - 1))
    ∧ (runFailures 2 5 5).1.state = ConnectionState.Failed
    ∧ ((runFailures 2 5 7).2)[7 - 1]? = some (2 * 2 ^ (5 - 1))
    ∧ (runFailures RECONNECT_BASE_DELAY MAX_RECONNECT_ATTEMPTS MAX_RECONNECT_ATTEMPTS).2
        = [2, 4, 8, 16, 32] := by
  obtain ⟨ha, hb, hc, hd⟩ := C1_reconnect_backoff 2 5 3 (by decide) (by decide)
  exact ⟨ha, hb, hc 7 (by decide), hd⟩

/-- C9: once the client is successfully initialized, any further construction
— whatever its arguments — returns the existing instance with all fields
unchanged: the process state is untouched, the arguments are discarded, and no
step of `__init__` (validation, Firebase initialization, client setup, health
monitor) runs again. -/
theorem C9_reinit_noop (wf : String → Bool) (netOk : Bool)
    (env args : FirebaseConfig) (st : ProcState) (o : ClientObj)
    (hinst : st.inst = some o) (hinit : o.initialized = true) :
    construct wf netOk env args st = (Except.ok o, st, []) := by
  simp [construct, new_instance, hinst, hinit]

/-- Witness for C9: an initialized instance is returned as is on a second
construction with different arguments. -/
theorem C9_reinit_noop_witness :
    construct (fun _ => true) true ⟨some "e", some "f"⟩ ⟨some "other", some "args"⟩
        ⟨some ⟨0, true, some "c", some "p"⟩, 1⟩
      = (Except.ok ⟨0, true, some "c", some "p"⟩, ⟨some ⟨0, true, some "c", some "p"⟩, 1⟩, []) :=
  C9_reinit_noop (fun _ => true) true ⟨some "e", some "f"⟩ ⟨some "other", some "args"⟩
    ⟨some ⟨0, true, some "c", some "p"⟩, 1⟩ ⟨0, true, some "c", some "p"⟩ rfl rfl

/-- C3: a view's last-applied sequence marker is monotonically non-decreasing
under `applyToView`, and an event whose marker is not greater than the view's
current marker is rejected with a `MaterializedViewError` for component
`"materialized_views"` with operation `"apply"` and reason
`"stale-or-duplicate"` (carried as the message), the view table — value and
marker included — left unchanged. -/
theorem C3_marker_monotone_stale_rejected
    (f : PyVal → Event → PyVal) (i : PyVal) (views : SDict MaterializedView)
    (viewId : String) (e : Event) (v : MaterializedView)
    (hv : aget? views viewId = some v) :
    (∀ v', aget? (applyToView f i views viewId e).1 viewId = some v' →
        v.last_applied ≤ v'.last_applied)
    ∧ (e.seq ≤ v.last_applied →
        (applyToView f i views viewId e).1 = views
        ∧ ∃ err, (applyToView f i views viewId e).2 = Except.error err
            ∧ err.component = "materialized_views"
            ∧ err.message = "stale-or-duplicate"
            ∧ ctxGet? err "operation" = some (PyVal.vStr "apply")
            ∧ ctxGet? err "view_name" = some (PyVal.vStr viewId)) := by
  constructor
  · intro v' hv'
    by_cases h : e.seq ≤ v.last_applied
    · have h1 : (applyToView f i views viewId e).1 = views := by
        simp [applyToView, hv, h]
      rw [h1, hv] at hv'
      injection hv' with hv'
      rw [hv']
    · have h1 : (applyToView f i views viewId e).1
          = aset views viewId ⟨f v.value e, e.seq, true⟩ := by
        simp [applyToView, hv, h]
      rw [h1, aget?_aset_self] at hv'
      injection hv' with hv'
      rw [← hv']
      exact le_of_lt (lt_of_not_le h)
  · intro hstale
    refine ⟨by simp [applyToView, hv, hstale],
      MaterializedViewError.mk' "stale-or-duplicate" viewId "apply" none,
      by simp [applyToView, hv, hstale], rfl, rfl, ?_, ?_⟩
    · simp [ctxGet?, MaterializedViewError.mk', ReflexLayerError.mk', aget?]
    · simp [ctxGet?, MaterializedViewError.mk', ReflexLayerError.mk', aget?]

/-- Witness for C3: a view at marker 5 receiving an event with marker 3. -/
theorem C3_marker_monotone_stale_rejected_witness :
    (applyToView (fun v _ => v) PyVal.vNone [("v1", ⟨PyVal.vNone, 5, true⟩)] "v1"
        ⟨"t", [], "p", 3⟩).1 = [("v1", ⟨PyVal.vNone, 5, true⟩)]
    ∧ ∃ err, (applyToView (fun v _ => v) PyVal.vNone [("v1", ⟨PyVal.vNone, 5, true⟩)] "v1"
          ⟨"t", [], "p", 3⟩).2 = Except.error err
        ∧ err.component = "materialized_views"
        ∧ err.message = "stale-or-duplicate"
        ∧ ctxGet? err "operation" = some (PyVal.vStr "apply")
        ∧ ctxGet? err "view_name" = some (PyVal.vStr "v1") :=
  (C3_marker_monotone_stale_rejected (fun v _ => v) PyVal.vNone
    [("v1", ⟨PyVal.vNone, 5, true⟩)] "v1" ⟨"t", [], "p", 3⟩
    ⟨PyVal.vNone, 5, true⟩ rfl).2 (by decide)

/-- C4: applying the same event (identical sequence marker) to a view twice
leaves the view table after the second application identical to its state
after the first, and the second application is reported stale
(`MaterializedViewError`, operation `"apply"`, reason `"stale-or-duplicate"`)
rather than applied again. -/
theorem C4_second_application_stale
    (f : PyVal → Event → PyVal) (i : PyVal) (views : SDict MaterializedView)
    (viewId : String) (e : Event) :
    (applyToView f i (applyToView f i views viewId e).1 viewId e).1
      = (applyToView f i views viewId e).1
    ∧ ∃ err,
        (applyToView f i (applyToView f i views viewId e).1 viewId e).2
          = Except.error err
        ∧ err.component = "materialized_views"
        ∧ err.message = "stale-or-duplicate"
        ∧ ctxGet? err "operation" = some (PyVal.vStr "apply") := by
  have hctx : ctxGet? ( MaterializedViewError.mk' "stale-or-duplicate" viewId "apply" none)
      "operation" = some (PyVal.vStr "apply") := by
    simp [ctxGet?, MaterializedViewError.mk', ReflexLayerError.mk', aget?]
  rcases hv : aget? views viewId with _ | v
  · have h1 : (applyToView f i views viewId e).1
        = aset views viewId ⟨f i e, e.seq, true⟩ := by
      simp [applyToView, hv]
    have hget : aget? (aset views viewId (⟨f i e, e.seq, true⟩ : MaterializedView)) viewId
        = some ⟨f i e, e.seq, true⟩ := aget?_aset_self _ _ _
    rw [h1]
    exact ⟨by simp [applyToView, hget],
      MaterializedViewError.mk' "stale-or-duplicate" viewId "apply" none,
      by simp [applyToView, hget], rfl, rfl, hctx⟩
  · by_cases h : e.seq ≤ v.last_applied
    · have h1 : (applyToView f i views viewId e).1 = views := by
        simp [applyToView, hv, h]
      rw [h1]
      exact ⟨h1, MaterializedViewError.mk' "stale-or-duplicate" viewId "apply" none,
        by simp [applyToView, hv, h], rfl, rfl, hctx⟩
    · have h1 : (applyToView f i views viewId e).1
          = aset views viewId ⟨f v.value e, e.seq, true⟩ := by
        simp [applyToView, hv, h]
      have hget : aget? (aset views viewId (⟨f v.value e, e.seq, true⟩ : MaterializedView)) viewId
          = some ⟨f v.value e, e.seq, true⟩ := aget?_aset_self _ _ _
      rw [h1]
      exact ⟨by simp [applyToView, hget],
        MaterializedViewError.mk' "stale-or-duplicate" viewId "apply" none,
        by simp [applyToView, hget], rfl, rfl, hctx⟩

/-- C2: for every event and registered schema rule declaring required field
names, when at least one required field is absent from the payload, `ingest`
fails with a `ValidationError` (component `"event_mesh"`) whose violation set
contains exactly the missing required field names — none extra, none omitted —
each mapped to the `"Missing required field"` message, never only the first
violation. -/
theorem C2_missing_fields_all_reported
    (mesh : MeshState) (e : Event) (r : PyDict) (names : List String)
    (hrule : aget? mesh.schemas e.etype = some r)
    (hreq : aget? r "required_fields" = some (PyVal.vList (names.map PyVal.vStr)))
    (hmiss : ∃ n, n ∈ names ∧ ahasKey e.payload n = false) :
    ∃ err, ingest mesh e = Except.error err
      ∧ err.component = "event_mesh"
      ∧ ∃ sv, ctxGet? err "schema_violations" = some (PyVal.vDict sv)
          ∧ ∀ (k : String) (v : PyVal),
              ((k, v) ∈ sv ↔
                (k ∈ names ∧ ahasKey e.payload k = false
                  ∧ v = PyVal.vStr "Missing required field")) := by
  have hiff := extract_mem_iff e.payload r names hreq
  obtain ⟨n, hn, hnk⟩ := hmiss
  have hmem : (n, PyVal.vStr "Missing required field")
      ∈ extract_schema_violations e.payload (some r) :=
    (hiff n _).mpr ⟨hn, hnk, rfl⟩
  have hne : (extract_schema_violations e.payload (some r)).isEmpty = false := by
    cases hE : extract_schema_violations e.payload (some r) with
    | nil => rw [hE] at hmem; simp at hmem
    | cons a l => rfl
  refine ⟨ EventValidationError.mk' "Event validation failed" e.payload (some r),
    ?_, rfl, extract_schema_violations e.payload (some r), ?_, hiff⟩
  · simp [ingest, hrule, hne]
  · simp [ctxGet?, EventValidationError.mk', ReflexLayerError.mk', aget?]

/-- Witness for C2: a rule requiring `"order_id"` against an empty payload. -/
theorem C2_missing_fields_all_reported_witness :
    ∃ err,
      ingest ⟨[("order.created", [("required_fields", PyVal.vList [PyVal.vStr "order_id"])])], []⟩
          ⟨"order.created", [], "p", 1⟩
        = Except.error err
      ∧ err.component = "event_mesh"
      ∧ ∃ sv, ctxGet? err "schema_violations" = some (PyVal.vDict sv)
          ∧ ("order_id", PyVal.vStr "Missing required field") ∈ sv := by
  obtain ⟨err, h1, h2, sv, h3, h4⟩ :=
    C2_missing_fields_all_reported
      ⟨[("order.created", [("required_fields", PyVal.vList [PyVal.vStr "order_id"])])], []⟩
      ⟨"order.created", [], "p", 1⟩
      [("required_fields", PyVal.vList [PyVal.vStr "order_id"])] ["order_id"]
      rfl rfl ⟨"order_id", by simp, rfl⟩
  exact ⟨err, h1, h2, sv, h3, (h4 "order_id" _).mpr ⟨by simp, rfl, rfl⟩⟩

/-- C5: an event whose type has no registered schema rule computes an empty
violation set and passes straight through: `ingest` succeeds and routes the
event unchanged to every matching subscriber (type match or wildcard, in
registration order) — unknown event types are not dropped. -/
theorem C5_schema_free_passthrough (mesh : MeshState) (e : Event)
    (hnone : aget? mesh.schemas e.etype = none) :
    extract_schema_violations e.payload none = []
    ∧ ingest mesh e
        = Except.ok ((matchingSubs mesh e.etype).map (fun s => (s.sid, e)))
    ∧ ∀ s ∈ matchingSubs mesh e.etype,
        (s.sid, e) ∈ (matchingSubs mesh e.etype).map (fun s => (s.sid, e)) := by
  refine ⟨rfl, ?_, ?_⟩
  · simp [ingest, hnone, extract_schema_violations]
  · intro s hs
    exact List.mem_map.mpr ⟨s, hs, rfl⟩

/-- Witness for C5: an unregistered event type reaches both the wildcard and
the type-matching subscriber unchanged. -/
theorem C5_schema_free_passthrough_witness :
    extract_schema_violations [("x", PyVal.vNone)] none = []
    ∧ ingest ⟨[], [⟨"*", 0⟩, ⟨"a", 1⟩, ⟨"b", 2⟩]⟩ ⟨"a", [("x", PyVal.vNone)], "p", 1⟩
        = Except.ok [(0, ⟨"a", [("x", PyVal.vNone)], "p", 1⟩),
                     (1, ⟨"a", [("x", PyVal.vNone)], "p", 1⟩)] := by
  have h := C5_schema_free_passthrough ⟨[], [⟨"*", 0⟩, ⟨"a", 1⟩, ⟨"b", 2⟩]⟩
    ⟨"a", [("x", PyVal.vNone)], "p", 1⟩ rfl
  refine ⟨h.1, ?_⟩
  rw [h.2.1]
  rfl

theorem validate_error_of_invalid (wf : String → Bool) (o : ClientObj)
    (h : o.credentials_path = none ∨ o.project_id = none
      ∨ ∃ p, o.project_id = some p ∧ wf p = false) :
    ∃ err, validate_configuration wf o = Except.error err
      ∧ err.component = "firebase_client" := by
  rcases hc : o.credentials_path with _ | c
  · exact ⟨ FirebaseConnectionError.mk' "Missing credential reference" none none,
      by simp [validate_configuration, hc], rfl⟩
  · rcases hp : o.project_id with _ | p
    · exact ⟨ FirebaseConnectionError.mk' "Missing target identifier" none o.credentials_path,
        by simp [validate_configuration, hc, hp], rfl⟩
    · rcases h with h | h | ⟨q, hq, hwf⟩
      · rw [hc] at h; cases h
      · rw [hp] at h; cases h
      · rw [hp] at hq
        injection hq with hq
        subst hq
        exact ⟨ FirebaseConnectionError.mk' "Malformed target identifier" none o.credentials_path,
          by simp [validate_configuration, hc, hp, hwf], rfl⟩

/-- C6: when the client is not yet initialized and the effective configuration
(argument `or` environment) is invalid — missing credential reference, or
missing/malformed target identifier — construction fails with a
`ConnectionError` (component `"firebase_client"`), and the configuration check
is the only step that runs: no network step (Firebase initialization, client
setup, health monitor) is attempted. -/
theorem C6_invalid_config_fails_before_network (wf : String → Bool) (netOk : Bool)
    (env args : FirebaseConfig) (st : ProcState)
    (huninit : st.inst = none ∨ ∃ o, st.inst = some o ∧ o.initialized = false)
    (hbad : pyOr args.credentials_path env.credentials_path = none
        ∨ pyOr args.project_id env.project_id = none
        ∨ ∃ p, pyOr args.project_id env.project_id = some p ∧ wf p = false) :
    ∃ err, (construct wf netOk env args st).1 = Except.error err
      ∧ err.component = "firebase_client"
      ∧ (construct wf netOk env args st).2.2 = [InitStep.validate] := by
  rcases huninit with hinst | ⟨o, hinst, hinit⟩
  · obtain ⟨err, hverr, hcomp⟩ := validate_error_of_invalid wf
      { oid := st.nextId, initialized := false
        credentials_path := pyOr args.credentials_path env.credentials_path
        project_id := pyOr args.project_id env.project_id } hbad
    exact ⟨err, by simp [construct, new_instance, hinst, hverr],
      hcomp, by simp [construct, new_instance, hinst, hverr]⟩
  · obtain ⟨err, hverr, hcomp⟩ := validate_error_of_invalid wf
      { oid := o.oid, initialized := false
        credentials_path := pyOr args.credentials_path env.credentials_path
        project_id := pyOr args.project_id env.project_id } hbad
    exact ⟨err, by simp [construct, new_instance, hinst, hinit, hverr],
      hcomp, by simp [construct, new_instance, hinst, hinit, hverr]⟩

/-- Witness for C6: a fresh process with no credentials configured anywhere. -/
theorem C6_invalid_config_fails_before_network_witness :
    ∃ err, (construct (fun _ => true) true ⟨none, none⟩ ⟨none, none⟩ initProcState).1
        = Except.error err
      ∧ err.component = "firebase_client"
      ∧ (construct (fun _ => true) true ⟨none, none⟩ ⟨none, none⟩ initProcState).2.2
          = [InitStep.validate] :=
  C6_invalid_config_fails_before_network (fun _ => true) true ⟨none, none⟩ ⟨none, none⟩
    initProcState (Or.inl rfl) (Or.inl rfl)

theorem construct_inv (wf : String → Bool) (netOk : Bool) (env args : FirebaseConfig)
    (st : ProcState)
    (h : (st.inst = none ∧ st.nextId = 0)
      ∨ (∃ o, st.inst = some o ∧ o.oid = 0 ∧ st.nextId = 1)) :
    (((construct wf netOk env args st).2.1.inst = none
        ∧ (construct wf netOk env args st).2.1.nextId = 0)
      ∨ (∃ o, (construct wf netOk env args st).2.1.inst = some o ∧ o.oid = 0
          ∧ (construct wf netOk env args st).2.1.nextId = 1))
    ∧ (∀ o, (construct wf netOk env args st).1 = Except.ok o → o.oid = 0) := by
  obtain ⟨inst, nid⟩ := st
  rcases h with ⟨hinst, hnid⟩ | ⟨o, hinst, hoid, hnid⟩ <;>
    simp only at hinst hnid <;> subst hinst <;> subst hnid
  · rcases hv : validate_configuration wf
        { oid := 0, initialized := false, credentials_path := pyOr args.credentials_path env.credentials_path, project_id := pyOr args.project_id env.project_id } with err | u
    · refine ⟨Or.inr ⟨{ oid := 0, initialized := false, credentials_path := pyOr args.credentials_path env.credentials_path, project_id := pyOr args.project_id env.project_id },
        by simp [construct, new_instance, hv], rfl,
        by simp [construct, new_instance, hv]⟩, ?_⟩
      intro o ho
      simp [construct, new_instance, hv] at ho
    · cases netOk
      · refine ⟨Or.inr ⟨{ oid := 0, initialized := false, credentials_path := pyOr args.credentials_path env.credentials_path, project_id := pyOr args.project_id env.project_id },
          by simp [construct, new_instance, hv], rfl,
          by simp [construct, new_instance, hv]⟩, ?_⟩
        intro o ho
        simp [construct, new_instance, hv] at ho
      · refine ⟨Or.inr ⟨{ oid := 0, initialized := true, credentials_path := pyOr args.credentials_path env.credentials_path, project_id := pyOr args.project_id env.project_id },
          by simp [construct, new_instance, hv], rfl,
          by simp [construct, new_instance, hv]⟩, ?_⟩
        intro o ho
        simp [construct, new_instance, hv] at ho
        rw [← ho]
  · cases hinit : o.initialized
    · rcases hv : validate_configuration wf
          { oid := o.oid, initialized := false, credentials_path := pyOr args.credentials_path env.credentials_path, project_id := pyOr args.project_id env.project_id } with err | u
      · refine ⟨Or.inr ⟨{ oid := o.oid, initialized := false, credentials_path := pyOr args.credentials_path env.credentials_path, project_id := pyOr args.project_id env.project_id },
          by simp [construct, new_instance, hinit, hv], hoid,
          by simp [construct, new_instance, hinit, hv]⟩, ?_⟩
        intro o' ho
        simp [construct, new_instance, hinit, hv] at ho
      · cases netOk
        · refine ⟨Or.inr ⟨{ oid := o.oid, initialized := false, credentials_path := pyOr args.credentials_path env.credentials_path, project_id := pyOr args.project_id env.project_id },
            by simp [construct, new_instance, hinit, hv], hoid,
            by simp [construct, new_instance, hinit, hv]⟩, ?_⟩
          intro o' ho
          simp [construct, new_instance, hinit, hv] at ho
        · refine ⟨Or.inr ⟨{ oid := o.oid, initialized := true, credentials_path := pyOr args.credentials_path env.credentials_path, project_id := pyOr args.project_id env.project_id },
            by simp [construct, new_instance, hinit, hv], hoid,
            by simp [construct, new_instance, hinit, hv]⟩, ?_⟩
          intro o' ho
          simp [construct, new_instance, hinit, hv] at ho
          rw [← ho]
          exact hoid
    · refine ⟨Or.inr ⟨o, by simp [construct, new_instance, hinit], hoid,
        by simp [construct, new_instance, hinit]⟩, ?_⟩
      intro o' ho
      simp [construct, new_instance, hinit] at ho
      rw [← ho]
      exact hoid

theorem runConstructions_cons (wf : String → Bool) (c : CallArgs) (cs : List CallArgs)
    (st : ProcState) :
    runConstructions wf (c :: cs) st
      = ((runConstructions wf cs (construct wf c.netOk c.env c.args st).2.1).1,
         (construct wf c.netOk c.env c.args st).1
           :: (runConstructions wf cs (construct wf c.netOk c.env c.args st).2.1).2) := by
  rcases hE : construct wf c.netOk c.env c.args st with ⟨r, st', tr⟩
  rcases hR : runConstructions wf cs st' with ⟨stf, rs⟩
  simp [runConstructions, hE, hR]

theorem runConstructions_inv (wf : String → Bool) :
    ∀ (calls : List CallArgs) (st : ProcState),
      ((st.inst = none ∧ st.nextId = 0)
        ∨ (∃ o, st.inst = some o ∧ o.oid = 0 ∧ st.nextId = 1)) →
      (((runConstructions wf calls st).1.inst = none
          ∧ (runConstructions wf calls st).1.nextId = 0)
        ∨ (∃ o, (runConstructions wf calls st).1.inst = some o ∧ o.oid = 0
            ∧ (runConstructions wf calls st).1.nextId = 1))
      ∧ ∀ r ∈ (runConstructions wf calls st).2, ∀ o, r = Except.ok o → o.oid = 0 := by
  intro calls
  induction calls with
  | nil =>
      intro st h
      exact ⟨h, by simp [runConstructions]⟩
  | cons c cs ih =>
      intro st h
      have hc := construct_inv wf c.netOk c.env c.args st h
      have hr := ih _ hc.1
      rw [runConstructions_cons]
      refine ⟨hr.1, ?_⟩
      intro r hrm o ho
      rcases List.mem_cons.mp hrm with rfl | hm
      · exact hc.2 o ho
      · exact hr.2 r hm o ho

/-- C7: within one process, every sequence of `FirebaseClient(...)` calls
yields at most one allocation (`nextId ≤ 1`), and every call that returns an
object returns the one shared instance: all returned objects carry the single
allocated identity 0, so any two of them are the same instance. -/
theorem C7_singleton_instance (wf : String → Bool) (calls : List CallArgs) :
    (∀ r ∈ (runConstructions wf calls initProcState).2, ∀ o, r = Except.ok o → o.oid = 0)
    ∧ (∀ r1 ∈ (runConstructions wf calls initProcState).2,
        ∀ r2 ∈ (runConstructions wf calls initProcState).2,
        ∀ o1 o2, r1 = Except.ok o1 → r2 = Except.ok o2 → o1.oid = o2.oid)
    ∧ (runConstructions wf calls initProcState).1.nextId ≤ 1 := by
  have h := runConstructions_inv wf calls initProcState (Or.inl ⟨rfl, rfl⟩)
  refine ⟨h.2, ?_, ?_⟩
  · intro r1 h1 r2 h2 o1 o2 e1 e2
    rw [h.2 r1 h1 o1 e1, h.2 r2 h2 o2 e2]
  · rcases h.1 with ⟨_, hn⟩ | ⟨o, _, _, hn⟩ <;> omega

/-- Witness for C7: two constructions with different arguments; at most one
allocation happens and the returned instance carries the single identity 0. -/
theorem C7_singleton_instance_witness :
    (runConstructions (fun _ => true)
        [⟨⟨some "c", some "p"⟩, ⟨none, none⟩, true⟩, ⟨⟨some "d", some "q"⟩, ⟨none, none⟩, true⟩]
        initProcState).1.nextId ≤ 1
    ∧ ({ oid := 0, initialized := true, credentials_path := some "c", project_id := some "p" } : ClientObj).oid = 0 := by
  have h := C7_singleton_instance (fun _ => true)
    [⟨⟨some "c", some "p"⟩, ⟨none, none⟩, true⟩, ⟨⟨some "d", some "q"⟩, ⟨none, none⟩, true⟩]
  have hres : (runConstructions (fun _ => true)
      [⟨⟨some "c", some "p"⟩, ⟨none, none⟩, true⟩, ⟨⟨some "d", some "q"⟩, ⟨none, none⟩, true⟩]
      initProcState).2
    = [Except.ok ⟨0, true, some "c", some "p"⟩, Except.ok ⟨0, true, some "c", some "p"⟩] := rfl
  have hm : Except.ok ({ oid := 0, initialized := true, credentials_path := some "c", project_id := some "p" } : ClientObj)
      ∈ (runConstructions (fun _ => true)
          [⟨⟨some "c", some "p"⟩, ⟨none, none⟩, true⟩, ⟨⟨some "d", some "q"⟩, ⟨none, none⟩, true⟩]
          initProcState).2 := by
    rw [hres]
    exact List.mem_cons_self _ _
  exact ⟨h.2.2, h.1 _ hm _ rfl⟩

/-- C8: every error of the taxonomy — the base kind and all three specialized
kinds — carries its component tag (`"unknown"` only when the base constructor
is given no other tag, `"firebase_client"`, `"event_mesh"`,
`"materialized_views"`) and a structured context that is always a mapping,
never absent: even a base error constructed with no context carries `{}`. -/
theorem C8_component_and_context (m c : String) (ctx : Option PyDict)
    (fe cp : Option String) (ed : PyDict) (rules : Option PyDict)
    (vn op : String) (data : Option PyDict) :
    ((ReflexLayerError.mk' m c ctx).component = c
      ∧ ∃ d, (ReflexLayerError.mk' m c ctx).context = PyVal.vDict d)
    ∧ ((ReflexLayerError.mk' m "unknown" none).context = PyVal.vDict [])
    ∧ ((FirebaseConnectionError.mk' m fe cp).component = "firebase_client"
      ∧ ∃ d, (FirebaseConnectionError.mk' m fe cp).context = PyVal.vDict d)
    ∧ ((EventValidationError.mk' m ed rules).component = "event_mesh"
      ∧ ∃ d, (EventValidationError.mk' m ed rules).context = PyVal.vDict d)
    ∧ ((MaterializedViewError.mk' m vn op data).component = "materialized_views"
      ∧ ∃ d, (MaterializedViewError.mk' m vn op data).context = PyVal.vDict d) :=
  ⟨⟨rfl, ⟨_, rfl⟩⟩, rfl, ⟨rfl, ⟨_, rfl⟩⟩, ⟨rfl, ⟨_, rfl⟩⟩, ⟨rfl, ⟨_, rfl⟩⟩⟩

/-- C10: the context of every `MaterializedViewError` holds exactly the view
name, the operation, and a `data_size` equal to the number of entries of the
supplied data mapping (0 when the data is `None` or empty); no context value
is a mapping, so the data itself is never stored in the context. -/
theorem C10_mv_error_context (msg vn op : String) (data : Option PyDict) :
    (MaterializedViewError.mk' msg vn op data).context
      = PyVal.vDict [("view_name", PyVal.vStr vn), ("operation", PyVal.vStr op),
          ("data_size", PyVal.vInt ((data.getD []).length : Int))]
    ∧ ctxGet? (MaterializedViewError.mk' msg vn op data) "view_name" = some (PyVal.vStr vn)
    ∧ ctxGet? (MaterializedViewError.mk' msg vn op data) "operation" = some (PyVal.vStr op)
    ∧ ctxGet? (MaterializedViewError.mk' msg vn op data) "data_size"
        = some (PyVal.vInt ((data.getD []).length : Int))
    ∧ ∀ (k : String) (v : PyVal),
        ctxGet? (MaterializedViewError.mk' msg vn op data) k = some v →
        ∀ dd : List (String × PyVal), v ≠ PyVal.vDict dd := by
  have hsize : (match data with
      | some d => if d.isEmpty then (0 : Int) else (d.length : Int)
      | none => (0 : Int)) = ((data.getD []).length : Int) := by
    rcases data with _ | d
    · rfl
    · cases d <;> simp
  have hctx : (MaterializedViewError.mk' msg vn op data).context
      = PyVal.vDict [("view_name", PyVal.vStr vn), ("operation", PyVal.vStr op),
          ("data_size", PyVal.vInt ((data.getD []).length : Int))] := by
    simp only [MaterializedViewError.mk', ReflexLayerError.mk', hsize]
  refine ⟨hctx, ?_, ?_, ?_, ?_⟩
  · simp [ctxGet?, hctx, aget?]
  · simp [ctxGet?, hctx, aget?]
  · simp [ctxGet?, hctx, aget?]
  · intro k v hv dd
    rw [ctxGet?] at hv
    rw [hctx] at hv
    have hm := mem_of_aget?_eq_some hv
    simp at hm
    rcases hm with ⟨_, hveq⟩ | ⟨_, hveq⟩ | ⟨_, hveq⟩ <;> subst hveq <;> simp

/-- Witness for C10: a two-entry data mapping yields `data_size = 2` and a
non-mapping value at `"view_name"`. -/
theorem C10_mv_error_context_witness :
    ctxGet? ( MaterializedViewError.mk' "m" "v" "apply"
        (some [("a", PyVal.vNone), ("b", PyVal.vNone)])) "data_size"
      = some (PyVal.vInt 2)
    ∧ PyVal.vStr "v" ≠ PyVal.vDict [] := by
  have h := C10_mv_error_context "m" "v" "apply" (some [("a", PyVal.vNone), ("b", PyVal.vNone)])
  exact ⟨h.2.2.2.1, h.2.2.2.2 "view_name" (PyVal.vStr "v") h.2.1 []⟩
